import Mathlib

/-
  Verification of the resumable Google Drive downloader (src/download.py).

  Shallow embedding conventions:
  * File contents are `List Nat` (byte values).
  * `hashlib.md5` is modelled by a full executable MD5 implementation
    (`md5Bytes` / `md5hex`, RFC 1321); the incremental hash object is
    modelled by its accumulated input buffer, since `m.update(a); m.update(b)`
    is specified by the hashlib documentation to equal `m.update(a ++ b)`.
  * 32-bit machine arithmetic is `Nat` with explicit `% 2^32`.
  * The network / `MediaIoBaseDownload.next_chunk` collaborator is driven by
    an `oracle : Nat -> Option PyExc` giving, for each successive call, either
    `none` (the HTTP request itself is answered by the server) or `some e`
    (the call raises the Python exception `e`).  When the server answers:
    a range request starting strictly below the object size returns the next
    bytes (at most one chunk) and reports done when the accumulated progress
    equals the total size; a range request starting at or beyond the end of a
    nonempty object is answered 416 and surfaces as an `HttpError`; for a
    zero-byte object the downloader reports done immediately (the zero-byte
    special case of the media downloader, matching the spec's reading of the
    size-0 edge case as "complete after zero chunks").
  * The retry loop of `resume_download` is embedded with an explicit fuel
    argument so that the definition is structurally recursive and executable;
    the fuel (`engineFuel`) strictly dominates the loop's lexicographic
    termination measure, and all general theorems either hold for every
    outcome or come with an explicit bound showing the fuel is never
    exhausted on the path considered.
-/

/-! ## MD5 (RFC 1321), executable -/

def M32 : Nat := 4294967296

/-- Bitwise complement on 32-bit words represented as `Nat < 2^32`. -/
def not32 (x : Nat) : Nat := 4294967295 - x

/-- Left-rotation of a 32-bit word. -/
def rotl32 (x s : Nat) : Nat := (x * 2 ^ s) % M32 + x / 2 ^ (32 - s)

/-- The 64 MD5 sine-derived round constants. -/
def mdK : List Nat :=
  [0xd76aa478, 0xe8c7b756, 0x242070db, 0xc1bdceee,
   0xf57c0faf, 0x4787c62a, 0xa8304613, 0xfd469501,
   0x698098d8, 0x8b44f7af, 0xffff5bb1, 0x895cd7be,
   0x6b901122, 0xfd987193, 0xa679438e, 0x49b40821,
   0xf61e2562, 0xc040b340, 0x265e5a51, 0xe9b6c7aa,
   0xd62f105d, 0x02441453, 0xd8a1e681, 0xe7d3fbc8,
   0x21e1cde6, 0xc33707d6, 0xf4d50d87, 0x455a14ed,
   0xa9e3e905, 0xfcefa3f8, 0x676f02d9, 0x8d2a4c8a,
   0xfffa3942, 0x8771f681, 0x6d9d6122, 0xfde5380c,
   0xa4beea44, 0x4bdecfa9, 0xf6bb4b60, 0xbebfbc70,
   0x289b7ec6, 0xeaa127fa, 0xd4ef3085, 0x04881d05,
   0xd9d4d039, 0xe6db99e5, 0x1fa27cf8, 0xc4ac5665,
   0xf4292244, 0x432aff97, 0xab9423a7, 0xfc93a039,
   0x655b59c3, 0x8f0ccc92, 0xffeff47d, 0x85845dd1,
   0x6fa87e4f, 0xfe2ce6e0, 0xa3014314, 0x4e0811a1,
   0xf7537e82, 0xbd3af235, 0x2ad7d2bb, 0xeb86d391]

/-- The 64 MD5 per-round left-rotation amounts. -/
def mdS : List Nat :=
  [7, 12, 17, 22, 7, 12, 17, 22, 7, 12, 17, 22, 7, 12, 17, 22,
   5, 9, 14, 20, 5, 9, 14, 20, 5, 9, 14, 20, 5, 9, 14, 20,
   4, 11, 16, 23, 4, 11, 16, 23, 4, 11, 16, 23, 4, 11, 16, 23,
   6, 10, 15, 21, 6, 10, 15, 21, 6, 10, 15, 21, 6, 10, 15, 21]

structure Md5Quad where
  a : Nat
  b : Nat
  c : Nat
  d : Nat
deriving DecidableEq, Repr

def md5Init : Md5Quad := ⟨0x67452301, 0xefcdab89, 0x98badcfe, 0x10325476⟩

/-- One of the 64 MD5 rounds, acting on the running quad. -/
def md5Step (w : List Nat) (q : Md5Quad) (i : Nat) : Md5Quad :=
  let f :=
    if i < 16 then Nat.lor (Nat.land q.b q.c) (Nat.land (not32 q.b) q.d)
    else if i < 32 then Nat.lor (Nat.land q.d q.b) (Nat.land (not32 q.d) q.c)
    else if i < 48 then Nat.xor q.b (Nat.xor q.c q.d)
    else Nat.xor q.c (Nat.lor q.b (not32 q.d))
  let g :=
    if i < 16 then i
    else if i < 32 then (5 * i + 1) % 16
    else if i < 48 then (3 * i + 5) % 16
    else (7 * i) % 16
  let f2 := (f + q.a + mdK.getD i 0 + w.getD g 0) % M32
  ⟨q.d, (q.b + rotl32 f2 (mdS.getD i 0)) % M32, q.b, q.c⟩

/-- Process one 64-byte block (given as bytes, little-endian words). -/
def md5Block (q : Md5Quad) (block : List Nat) : Md5Quad :=
  let w := (List.range 16).map (fun j =>
    block.getD (4 * j) 0 + 256 * block.getD (4 * j + 1) 0 +
      65536 * block.getD (4 * j + 2) 0 + 16777216 * block.getD (4 * j + 3) 0)
  let r := (List.range 64).foldl (md5Step w) q
  ⟨(q.a + r.a) % M32, (q.b + r.b) % M32, (q.c + r.c) % M32, (q.d + r.d) % M32⟩

/-- The 8 little-endian bytes of the 64-bit message bit length. -/
def lenBytes8 (n : Nat) : List Nat :=
  [n % 256, n / 256 % 256, n / 65536 % 256, n / 16777216 % 256,
   n / 4294967296 % 256, n / 1099511627776 % 256,
   n / 281474976710656 % 256, n / 72057594037927936 % 256]

/-- MD5 padding: 0x80, zeros to 56 mod 64, then the bit length. -/
def md5Pad (msg : List Nat) : List Nat :=
  let len := msg.length
  let r := (len + 1) % 64
  let k := (120 - r) % 64
  msg ++ [128] ++ List.replicate k 0 ++ lenBytes8 (len * 8)

/-- Little-endian bytes of one 32-bit word. -/
def leBytes4 (x : Nat) : List Nat :=
  [x % 256, x / 256 % 256, x / 65536 % 256, x / 16777216 % 256]

/-- Split a list into maximal pieces of `n` elements; models the file-read
loop `iter(lambda: f.read(chunk_size), b"")` of `check_md5` (and MD5 block
splitting).  The explicit fuel equals the list length, which suffices for
every positive `n`; `n = 0` yields no chunks, matching `f.read(0) = b""`. -/
def chunksOfAux (n : Nat) : Nat → List Nat → List (List Nat)
  | 0, _ => []
  | _, [] => []
  | fuel + 1, l => if n = 0 then [] else l.take n :: chunksOfAux n fuel (l.drop n)

def chunksOf (n : Nat) (l : List Nat) : List (List Nat) := chunksOfAux n l.length l

/-- The 16 digest bytes of a whole message. -/
def md5Bytes (msg : List Nat) : List Nat :=
  let q := (chunksOf 64 (md5Pad msg)).foldl md5Block md5Init
  leBytes4 q.a ++ leBytes4 q.b ++ leBytes4 q.c ++ leBytes4 q.d

/-- The lowercase hex digit for a value below 16 (as in Python's `%x`);
`Nat.digitChar` maps 0-9 to the decimal digits and 10-15 to lowercase
letters. -/
def hexDigitChar (k : Nat) : Char := Nat.digitChar k

def hexPair (n : Nat) : List Char := [hexDigitChar (n / 16 % 16), hexDigitChar (n % 16)]

/-- Lowercase hex digest of a message, as Python's `md5(...).hexdigest()`. -/
def md5hex (msg : List Nat) : String := String.mk (((md5Bytes msg).map hexPair).flatten)

/-! ## check_md5 (src/download.py lines 108-131) -/

/-- A `hashlib.md5()` object, modelled by the bytes fed to it so far. -/
def Md5Obj := List Nat

/-- The `md5.update(chunk)` call. -/
def md5_update (m : Md5Obj) (chunk : List Nat) : Md5Obj := List.append m chunk

/-- The `md5.hexdigest()` call. -/
def md5_hexdigest (m : Md5Obj) : String := md5hex m

/-- Embedding of `check_md5(file_path, expected_md5)`: the file at the path
is `content`; the size-dependent chunk size, the streaming update loop and
the final comparison follow the source line by line. -/
def check_md5 (content : List Nat) (expected_md5 : String) : Bool :=
  let file_size := content.length
  let chunk_size :=
    if 1024 * 1024 * 1024 < file_size then 64 * 1024 * 1024 else 4 * 1024 * 1024
  let md5 : Md5Obj := (chunksOf chunk_size content).foldl md5_update ([] : List Nat)
  md5_hexdigest md5 == expected_md5

/-! ## The resumable transfer engine (src/download.py lines 134-188)

`resume_download(service, file_id, temp_path, file_info, max_retries)`:
the remote object's true bytes are `content` (the Drive metadata size for a
stored file equals the actual byte count, so the declared size is
`content.length`); the temp file is `tempContent` (`none` when the path does
not exist; opening with mode "ab" then creates it empty).  The loop state
records, besides the Python locals `offset` (mirroring `downloader._progress`),
`retries` and the file bytes, three observation traces: `calls` counts
`next_chunk` invocations, `sleeps` the arguments of `time.sleep`, and
`offsetHistory` every value taken by `offset` (initial value included). -/

inductive PyExc where
  | httpError (status : Nat)
  | connectionError
  | timeoutError
  | otherError
deriving DecidableEq, Repr

/-- Whether the exception is caught by the loop's
`except (HttpError, ConnectionError, TimeoutError)` clause. -/
def caughtByLoop : PyExc → Bool
  | .httpError _ => true
  | .connectionError => true
  | .timeoutError => true
  | .otherError => false

structure EngineState where
  offset : Nat
  retries : Nat
  calls : Nat
  temp : List Nat
  sleeps : List Nat
  offsetHistory : List Nat
  done : Bool
deriving DecidableEq, Repr

/-- The `except` branch: increment `retries`, sleep `min(2**retries, 60)`. -/
def retryStep (s : EngineState) : EngineState :=
  { s with retries := s.retries + 1, calls := s.calls + 1,
           sleeps := s.sleeps ++ [min (2 ^ (s.retries + 1)) 60] }

/-- Iterated retry step: j consecutive caught failures. -/
def retrySteps : Nat → EngineState → EngineState
  | 0, s => s
  | j + 1, s => retrySteps j (retryStep s)

inductive RunResult where
  | finished (s : EngineState)
  | raised (e : PyExc) (s : EngineState)
  | fuelOut (s : EngineState)
deriving DecidableEq, Repr

/-- The state carried by any of the three outcomes. -/
def stateOf : RunResult → EngineState
  | .finished s => s
  | .raised _ s => s
  | .fuelOut s => s

/-- `chunksize=10 * 1024 * 1024` at the `MediaIoBaseDownload` construction. -/
def CHUNK_SIZE : Nat := 10 * 1024 * 1024

/-- The `while not done and retries < max_retries` loop.  Each iteration
calls `next_chunk` (behaviour given by `oracle` at index `calls`, see the
header comment): on success the fetched bytes are appended and `offset`
advances with `retries` reset; a caught exception takes `retryStep`; any
other exception propagates out of `resume_download` as `raised`. -/
def engineLoopF (content : List Nat) (max_retries : Nat)
    (oracle : Nat → Option PyExc) : Nat → EngineState → RunResult
  | 0, s => .fuelOut s
  | fuel + 1, s =>
    if s.done = true ∨ max_retries ≤ s.retries then .finished s
    else
      match oracle s.calls with
      | some e =>
        if caughtByLoop e then engineLoopF content max_retries oracle fuel (retryStep s)
        else .raised e { s with calls := s.calls + 1 }
      | none =>
        if s.offset < content.length then
          let chunk := (content.drop s.offset).take CHUNK_SIZE
          let newOff := s.offset + chunk.length
          engineLoopF content max_retries oracle fuel
            { offset := newOff, retries := 0, calls := s.calls + 1,
              temp := s.temp ++ chunk, sleeps := s.sleeps,
              offsetHistory := s.offsetHistory ++ [newOff],
              done := decide (newOff = content.length) }
        else if content.length = 0 then
          .finished { s with retries := 0, calls := s.calls + 1,
                             offsetHistory := s.offsetHistory ++ [s.offset],
                             done := true }
        else
          engineLoopF content max_retries oracle fuel (retryStep s)

/-- An upper bound on the number of loop iterations: between two successful
chunks at most `max_retries` failures occur, and at most
`content.length + 1` successes are possible. -/
def engineFuel (content : List Nat) (max_retries : Nat) : Nat :=
  (content.length + 2) * (max_retries + 2)

/-- Embedding of `resume_download`: the resume offset is initialised from the
on-disk length of the temp file (0 when absent), `downloader._progress` is
set to it, `done := False`, `retries := 0`, and the loop runs. -/
def resume_download (tempContent : Option (List Nat)) (content : List Nat)
    (max_retries : Nat) (oracle : Nat → Option PyExc) : RunResult :=
  let t := tempContent.getD []
  let offset := t.length
  engineLoopF content max_retries oracle (engineFuel content max_retries)
    { offset := offset, retries := 0, calls := 0, temp := t,
      sleeps := [], offsetHistory := [offset], done := false }

/-- A fetcher that always fails with a transient network error. -/
def transientOracle : Nat → Option PyExc := fun _ => some PyExc.connectionError

/-- A fetcher whose requests are always answered by the server. -/
def allOk : Nat → Option PyExc := fun _ => none

/-- A fetcher that always fails fatally: the object is gone (HTTP 404). -/
def fatalNotFoundOracle : Nat → Option PyExc := fun _ => some (PyExc.httpError 404)

/-! ## The orchestrator run (src/download.py lines 20-72)

`run(file_id, save_dir, credentials_path, check_sum)`: collaborator
behaviour is part of the `World`: `credsFail` (resp. `metadataFail`) says
that `init_credentials` (resp. `get_file_info`) raises — both are then
caught by the surrounding `except Exception` and `run` returns `False`.
`finalContent`/`tempContent` are the bytes at the final and temp paths
(`none` when the path does not exist), `object` the remote object's bytes
and `md5Checksum` the metadata digest field (`file_info.get("md5Checksum", "")`
yields `""` when absent).  The Python return value is `Option Bool`:
`some b` for `return True/False`, `none` for falling off the function (the
implicit `None` after the "download failed" print).  The returned `World`
is the final filesystem state. -/

structure World where
  credsFail : Bool
  metadataFail : Bool
  md5Checksum : Option String
  finalContent : Option (List Nat)
  tempContent : Option (List Nat)
  object : List Nat
deriving DecidableEq, Repr

/-- The part of `run` from the `resume_download` call on: on engine success
`os.rename(temp_path, final_path)` (atomic, overwrites an existing final
path), then the optional digest check; on engine failure the "download
failed" message is printed and control falls off the function (`none`). -/
def runDownloadPhase (w : World) (oracle : Nat → Option PyExc)
    (check_sum : Bool) (expected : String) : Option Bool × World :=
  match resume_download w.tempContent w.object 3 oracle with
  | .finished s =>
    if s.done then
      let w2 := { w with tempContent := none, finalContent := some s.temp }
      if check_sum = false then (some true, w2)
      else if check_md5 s.temp expected then (some true, w2)
      else (some false, w2)
    else (none, { w with tempContent := some s.temp })
  | .raised _ s => (some false, { w with tempContent := some s.temp })
  | .fuelOut s => (none, { w with tempContent := some s.temp })

/-- Embedding of `run`.  The final path pre-exists iff `w.finalContent` is
`some`; when it does and `check_sum` is on but the digest check fails, the
code only prints a warning and falls through to the download phase. -/
def run (w : World) (oracle : Nat → Option PyExc) (check_sum : Bool) :
    Option Bool × World :=
  if w.credsFail then (some false, w)
  else if w.metadataFail then (some false, w)
  else
    let expected := (w.md5Checksum.getD "")
    match w.finalContent with
    | some fc =>
      if check_sum = false then (some true, w)
      else if check_md5 fc expected then (some true, w)
      else runDownloadPhase w oracle check_sum expected
    | none => runDownloadPhase w oracle check_sum expected

/-- Modelled from the spec's words for the refinement claim: the verifier's
verdict is the comparison of the digest of the entire file content against
the expected value. -/
def check_md5_spec (content : List Nat) (expected : String) : Bool :=
  md5hex content == expected

/-- Concrete world for the C1 counterexample: the final path already holds a
byte that does not hash to the expected digest (metadata carries no
checksum, so the expected digest is the empty string). -/
def c1World : World :=
  { credsFail := false, metadataFail := false, md5Checksum := none,
    finalContent := some [0], tempContent := none, object := [1] }

/-- Concrete world for the C1 witness: no final artifact yet, and a
deliberately wrong expected digest. -/
def c1WitnessWorld : World :=
  { credsFail := false, metadataFail := false, md5Checksum := some "x",
    finalContent := none, tempContent := none, object := [1] }

/-- Concrete world for C4: a healthy setup whose chunk fetches keep failing
transiently until the retry budget is exhausted. -/
def c4World : World :=
  { credsFail := false, metadataFail := false, md5Checksum := some "x",
    finalContent := none, tempContent := none, object := [1, 2, 3] }

/-! ## Helper lemmas about check_md5 -/

lemma chunksOfAux_flatten (n : Nat) (hn : 0 < n) :
    ∀ fuel l, List.length l ≤ fuel → (chunksOfAux n fuel l).flatten = l := by
  intro fuel
  induction fuel with
  | zero =>
    intro l hl
    have : l = [] := List.eq_nil_of_length_eq_zero (Nat.le_zero.mp hl)
    subst this
    rfl
  | succ fuel ih =>
    intro l hl
    cases l with
    | nil => rfl
    | cons a t =>
      have hn2 : ¬ n = 0 := Nat.pos_iff_ne_zero.mp hn
      simp only [chunksOfAux, if_neg hn2, List.flatten_cons]
      rw [ih ((a :: t).drop n) (by simp only [List.length_drop, List.length_cons] at *; omega)]
      exact List.take_append_drop n (a :: t)

lemma foldl_md5_update (chunks : List (List Nat)) :
    ∀ acc : List Nat, chunks.foldl md5_update acc = acc ++ chunks.flatten := by
  induction chunks with
  | nil => intro acc; simp [List.foldl]
  | cons c cs ih =>
    intro acc
    simp only [List.foldl, List.flatten_cons, md5_update]
    rw [ih]
    simp [List.append_assoc]

/-- The streamed digest of `check_md5` equals the digest of the whole file,
whichever chunk-size branch is taken. -/
lemma check_md5_eq_whole (content : List Nat) (e : String) :
    check_md5 content e = (md5hex content == e) := by
  have key : ∀ n, 0 < n →
      ((chunksOf n content).foldl md5_update ([] : List Nat)) = content := by
    intro n hn
    rw [foldl_md5_update, List.nil_append, chunksOf,
      chunksOfAux_flatten n hn content.length content le_rfl]
  simp only [check_md5, md5_hexdigest]
  rw [key _ (by split <;> norm_num)]

lemma hexPairs_flatten_length :
    ∀ bs : List Nat, (List.length ((bs.map hexPair).flatten)) = 2 * bs.length := by
  intro bs
  induction bs with
  | nil => rfl
  | cons b t ih =>
    simp only [List.map_cons, List.flatten_cons, List.length_append, List.length_cons, ih, hexPair]
    simp only [List.length_cons, List.length_nil]
    omega

lemma md5Bytes_length (msg : List Nat) : (md5Bytes msg).length = 16 := by
  simp [md5Bytes, leBytes4]

lemma md5hex_length (msg : List Nat) : (md5hex msg).length = 32 := by
  show (List.length (((md5Bytes msg).map hexPair).flatten)) = 32
  rw [hexPairs_flatten_length, md5Bytes_length]

lemma md5hex_ne_empty (msg : List Nat) : md5hex msg ≠ "" := by
  intro h
  have := md5hex_length msg
  rw [h] at this
  simp at this

/-! ## Helper lemmas about the engine loop -/

lemma retryStep_offset (s : EngineState) : (retryStep s).offset = s.offset := rfl

lemma retryStep_done (s : EngineState) : (retryStep s).done = s.done := rfl

lemma retrySteps_offset : ∀ j s, (retrySteps j s).offset = s.offset := by
  intro j
  induction j with
  | zero => intro s; rfl
  | succ j ih => intro s; rw [retrySteps, ih, retryStep_offset]

lemma retrySteps_retries : ∀ j s, (retrySteps j s).retries = s.retries + j := by
  intro j
  induction j with
  | zero => intro s; rfl
  | succ j ih => intro s; rw [retrySteps, ih]; simp [retryStep]; omega

lemma retrySteps_calls : ∀ j s, (retrySteps j s).calls = s.calls + j := by
  intro j
  induction j with
  | zero => intro s; rfl
  | succ j ih => intro s; rw [retrySteps, ih]; simp [retryStep]; omega

lemma retrySteps_temp : ∀ j s, (retrySteps j s).temp = s.temp := by
  intro j
  induction j with
  | zero => intro s; rfl
  | succ j ih => intro s; rw [retrySteps, ih]; rfl

lemma retrySteps_done : ∀ j s, (retrySteps j s).done = s.done := by
  intro j
  induction j with
  | zero => intro s; rfl
  | succ j ih => intro s; rw [retrySteps, ih]; rfl

lemma retrySteps_offsetHistory : ∀ j s, (retrySteps j s).offsetHistory = s.offsetHistory := by
  intro j
  induction j with
  | zero => intro s; rfl
  | succ j ih => intro s; rw [retrySteps, ih]; rfl

lemma retrySteps_sleeps : ∀ j s, (retrySteps j s).sleeps =
    s.sleeps ++ (List.range j).map (fun i => min (2 ^ (s.retries + i + 1)) 60) := by
  intro j
  induction j with
  | zero => intro s; simp [retrySteps]
  | succ j ih =>
    intro s
    rw [retrySteps, ih]
    simp only [retryStep, List.range_succ_eq_map, List.map_cons, List.map_map, Function.comp]
    rw [List.append_assoc, List.singleton_append]
    congr 2
    apply List.map_congr_left
    intro i _
    simp only [Function.comp_apply]
    congr 2
    omega

/-- Under a fetcher whose every call raises a caught exception, the loop is
exactly `max_retries - retries` iterations of `retryStep`. -/
lemma engine_all_caught (content : List Nat) (m : Nat) (oracle : Nat → Option PyExc)
    (hor : ∀ k, ∃ e, oracle k = some e ∧ caughtByLoop e = true) :
    ∀ fuel s, s.done = false → m - s.retries < fuel →
      engineLoopF content m oracle fuel s = .finished (retrySteps (m - s.retries) s) := by
  intro fuel
  induction fuel with
  | zero => intro s _ h; omega
  | succ fuel ih =>
    intro s hdone hlt
    by_cases hstop : m ≤ s.retries
    · have h0 : m - s.retries = 0 := by omega
      rw [h0]
      simp only [engineLoopF]
      rw [if_pos (Or.inr hstop)]
      rfl
    · obtain ⟨e, he, hc⟩ := hor s.calls
      have hneg : ¬ (s.done = true ∨ m ≤ s.retries) := by
        intro hcon
        rcases hcon with h | h
        · rw [hdone] at h; simp at h
        · exact hstop h
      have hj : m - s.retries = (m - (retryStep s).retries) + 1 := by
        simp only [retryStep]
        omega
      simp only [engineLoopF, if_neg hneg, he, hc, eq_self_iff_true, if_true]
      rw [ih (retryStep s) (by rw [retryStep_done, hdone])
        (by simp only [retryStep]; omega)]
      rw [hj]
      rfl

lemma take_drop_cover (l : List Nat) (n : Nat) :
    l.take n ++ l.drop ((l.take n).length) = l := by
  rw [List.length_take]
  rcases Nat.le_total n l.length with h | h
  · rw [Nat.min_eq_left h]
    exact List.take_append_drop n l
  · rw [Nat.min_eq_right h, List.drop_length, List.append_nil]
    exact List.take_of_length_le h

/-- Under a fetcher whose requests always reach the server, a loop state
strictly inside the object is driven to completion: the rest of the object
is appended and the final offset is the object length. -/
lemma engine_all_ok (content : List Nat) (m : Nat) :
    ∀ fuel s, s.done = false → s.retries < m → s.offset < content.length →
      content.length - s.offset + 1 < fuel →
      ∃ k hist, engineLoopF content m allOk fuel s =
        .finished { offset := content.length, retries := 0, calls := s.calls + k,
                    temp := s.temp ++ content.drop s.offset, sleeps := s.sleeps,
                    offsetHistory := s.offsetHistory ++ hist, done := true } := by
  intro fuel
  induction fuel with
  | zero => intro s _ _ _ h; omega
  | succ fuel ih =>
    intro s hdone hr hoff hfuel
    have hneg : ¬ (s.done = true ∨ m ≤ s.retries) := by
      intro hcon
      rcases hcon with h | h
      · rw [hdone] at h; simp at h
      · omega
    have hC : CHUNK_SIZE = 10485760 := rfl
    have hchunklen : ((content.drop s.offset).take CHUNK_SIZE).length =
        min CHUNK_SIZE (content.length - s.offset) := by
      simp [List.length_take, List.length_drop]
    simp only [engineLoopF, if_neg hneg, allOk]
    rw [if_pos hoff]
    by_cases hfull : s.offset + ((content.drop s.offset).take CHUNK_SIZE).length
        = content.length
    · -- the fetched chunk reaches the end of the object
      have hall : (content.drop s.offset).length ≤ CHUNK_SIZE := by
        rw [List.length_drop]
        omega
      have hchunkeq : (content.drop s.offset).take CHUNK_SIZE = content.drop s.offset :=
        List.take_of_length_le hall
      refine ⟨1, [content.length], ?_⟩
      cases fuel with
      | zero => omega
      | succ fuel2 =>
        simp only [engineLoopF]
        rw [if_pos (Or.inl (decide_eq_true hfull))]
        rw [hchunkeq] at hfull ⊢
        rw [hfull]
        simp
    · -- strictly more bytes remain after this chunk
      have hlt : s.offset + ((content.drop s.offset).take CHUNK_SIZE).length
          < content.length := by
        rw [hchunklen] at hfull ⊢
        omega
      have hpos : 1 ≤ ((content.drop s.offset).take CHUNK_SIZE).length := by
        rw [hchunklen]
        omega
      obtain ⟨k, hist, heq⟩ := ih
        { offset := s.offset + ((content.drop s.offset).take CHUNK_SIZE).length,
          retries := 0, calls := s.calls + 1,
          temp := s.temp ++ (content.drop s.offset).take CHUNK_SIZE,
          sleeps := s.sleeps,
          offsetHistory := s.offsetHistory ++
            [s.offset + ((content.drop s.offset).take CHUNK_SIZE).length],
          done := decide (s.offset + ((content.drop s.offset).take CHUNK_SIZE).length
            = content.length) }
        (by simp only [decide_eq_false hfull]) (by dsimp only; omega)
        (by dsimp only; exact hlt) (by dsimp only; omega)
      refine ⟨k + 1,
        (s.offset + ((content.drop s.offset).take CHUNK_SIZE).length) :: hist, ?_⟩
      rw [heq]
      congr 2
      · dsimp only; omega
      · show (s.temp ++ (content.drop s.offset).take CHUNK_SIZE) ++
          content.drop (s.offset + ((content.drop s.offset).take CHUNK_SIZE).length) =
          s.temp ++ content.drop s.offset
        rw [List.append_assoc]
        congr 1
        have hdd : content.drop (s.offset +
            ((content.drop s.offset).take CHUNK_SIZE).length) =
            (content.drop s.offset).drop
              (((content.drop s.offset).take CHUNK_SIZE).length) := by
          rw [List.drop_drop]
        rw [hdd]
        exact take_drop_cover (content.drop s.offset) CHUNK_SIZE
      · show (s.offsetHistory ++
          [s.offset + ((content.drop s.offset).take CHUNK_SIZE).length]) ++ hist =
          s.offsetHistory ++
            ((s.offset + ((content.drop s.offset).take CHUNK_SIZE).length) :: hist)
        rw [List.append_assoc]
        rfl

/-- Whatever the outcome, the loop only ever appends to the temp file and to
the offset history. -/
lemma engine_extends (content : List Nat) (m : Nat) (oracle : Nat → Option PyExc) :
    ∀ fuel s, ∃ r1 r2,
      (stateOf (engineLoopF content m oracle fuel s)).temp = s.temp ++ r1 ∧
      (stateOf (engineLoopF content m oracle fuel s)).offsetHistory
        = s.offsetHistory ++ r2 := by
  intro fuel
  induction fuel with
  | zero => intro s; exact ⟨[], [], by simp [engineLoopF, stateOf], by simp [engineLoopF, stateOf]⟩
  | succ fuel ih =>
    intro s
    by_cases hstop : s.done = true ∨ m ≤ s.retries
    · refine ⟨[], [], ?_, ?_⟩ <;> simp [engineLoopF, if_pos hstop, stateOf]
    · simp only [engineLoopF, if_neg hstop]
      cases horc : oracle s.calls with
      | some e =>
        dsimp only
        by_cases hc : caughtByLoop e = true
        · rw [if_pos hc]
          obtain ⟨r1, r2, h1, h2⟩ := ih (retryStep s)
          exact ⟨r1, r2, by rw [h1]; rfl, by rw [h2]; rfl⟩
        · rw [if_neg hc]
          exact ⟨[], [], by simp [stateOf], by simp [stateOf]⟩
      | none =>
        dsimp only
        by_cases hoff : s.offset < content.length
        · rw [if_pos hoff]
          obtain ⟨r1, r2, h1, h2⟩ := ih
            { offset := s.offset + ((content.drop s.offset).take CHUNK_SIZE).length,
              retries := 0, calls := s.calls + 1,
              temp := s.temp ++ (content.drop s.offset).take CHUNK_SIZE,
              sleeps := s.sleeps,
              offsetHistory := s.offsetHistory ++
                [s.offset + ((content.drop s.offset).take CHUNK_SIZE).length],
              done := decide (s.offset +
                ((content.drop s.offset).take CHUNK_SIZE).length = content.length) }
          refine ⟨(content.drop s.offset).take CHUNK_SIZE ++ r1,
            [s.offset + ((content.drop s.offset).take CHUNK_SIZE).length] ++ r2, ?_, ?_⟩
          · rw [h1]
            dsimp only
            rw [List.append_assoc]
          · rw [h2]
            dsimp only
            rw [List.append_assoc]
        · rw [if_neg hoff]
          by_cases hz : content.length = 0
          · rw [if_pos hz]
            exact ⟨[], [s.offset], by simp [stateOf], by simp [stateOf]⟩
          · rw [if_neg hz]
            obtain ⟨r1, r2, h1, h2⟩ := ih (retryStep s)
            exact ⟨r1, r2, by rw [h1]; rfl, by rw [h2]; rfl⟩

/-- Generic step-invariant preservation for the loop: a predicate closed
under the retry step, the successful-chunk step, the zero-size completion
step and the raised-exception step holds for the state of every outcome. -/
lemma engine_preserve (content : List Nat) (m : Nat) (oracle : Nat → Option PyExc)
    (P : EngineState → Prop)
    (hretry : ∀ s, P s → P (retryStep s))
    (hsucc : ∀ s, P s → s.offset < content.length →
      P { offset := s.offset + ((content.drop s.offset).take CHUNK_SIZE).length,
          retries := 0, calls := s.calls + 1,
          temp := s.temp ++ (content.drop s.offset).take CHUNK_SIZE,
          sleeps := s.sleeps,
          offsetHistory := s.offsetHistory ++
            [s.offset + ((content.drop s.offset).take CHUNK_SIZE).length],
          done := decide (s.offset +
            ((content.drop s.offset).take CHUNK_SIZE).length = content.length) })
    (hzero : ∀ s, P s → content.length = 0 →
      P { s with retries := 0, calls := s.calls + 1,
                 offsetHistory := s.offsetHistory ++ [s.offset], done := true })
    (hraise : ∀ s, P s → P { s with calls := s.calls + 1 }) :
    ∀ fuel s, P s → P (stateOf (engineLoopF content m oracle fuel s)) := by
  intro fuel
  induction fuel with
  | zero => intro s hs; exact hs
  | succ fuel ih =>
    intro s hs
    by_cases hstop : s.done = true ∨ m ≤ s.retries
    · simp only [engineLoopF, if_pos hstop]
      exact hs
    · simp only [engineLoopF, if_neg hstop]
      cases horc : oracle s.calls with
      | some e =>
        dsimp only
        by_cases hc : caughtByLoop e = true
        · rw [if_pos hc]
          exact ih (retryStep s) (hretry s hs)
        · rw [if_neg hc]
          exact hraise s hs
      | none =>
        dsimp only
        by_cases hoff : s.offset < content.length
        · rw [if_pos hoff]
          exact ih _ (hsucc s hs hoff)
        · rw [if_neg hoff]
          by_cases hz : content.length = 0
          · rw [if_pos hz]
            exact hzero s hs hz
          · rw [if_neg hz]
            exact ih (retryStep s) (hretry s hs)

/-- The on-disk temp length always equals the confirmed offset. -/
lemma engine_temp_len (content : List Nat) (m : Nat) (oracle : Nat → Option PyExc)
    (fuel : Nat) (s : EngineState) (h : s.temp.length = s.offset) :
    (stateOf (engineLoopF content m oracle fuel s)).temp.length
      = (stateOf (engineLoopF content m oracle fuel s)).offset := by
  refine engine_preserve content m oracle (fun s => s.temp.length = s.offset)
    ?_ ?_ ?_ ?_ fuel s h
  · intro s hs
    simpa [retryStep] using hs
  · intro s hs _
    simp only [List.length_append, hs]
  · intro s hs _
    simpa using hs
  · intro s hs
    simpa using hs

/-- If the loop starts within the object, the confirmed offset and every
value it ever takes stay bounded by the object size. -/
lemma engine_le (content : List Nat) (m : Nat) (oracle : Nat → Option PyExc)
    (fuel : Nat) (s : EngineState) (h1 : s.offset ≤ content.length)
    (h2 : ∀ o ∈ s.offsetHistory, o ≤ content.length) :
    (stateOf (engineLoopF content m oracle fuel s)).offset ≤ content.length ∧
    ∀ o ∈ (stateOf (engineLoopF content m oracle fuel s)).offsetHistory,
      o ≤ content.length := by
  refine engine_preserve content m oracle
    (fun s => s.offset ≤ content.length ∧ ∀ o ∈ s.offsetHistory, o ≤ content.length)
    ?_ ?_ ?_ ?_ fuel s ⟨h1, h2⟩
  · intro s hs
    exact ⟨hs.1, hs.2⟩
  · intro s hs hoff
    have hlen : ((content.drop s.offset).take CHUNK_SIZE).length ≤
        content.length - s.offset := by
      simp only [List.length_take, List.length_drop]
      omega
    constructor
    · dsimp only
      omega
    · dsimp only
      intro o ho
      rcases List.mem_append.mp ho with h | h
      · exact hs.2 o h
      · rcases List.mem_singleton.mp h with rfl
        omega
  · intro s hs hz
    constructor
    · dsimp only
      omega
    · dsimp only
      intro o ho
      rcases List.mem_append.mp ho with h | h
      · exact hs.2 o h
      · rcases List.mem_singleton.mp h with rfl
        exact hs.1
  · intro s hs
    exact ⟨hs.1, hs.2⟩

/-- A loop that starts not-done can only report done with the offset at the
object size, or on a zero-size object. -/
lemma engine_done_origin (content : List Nat) (m : Nat) (oracle : Nat → Option PyExc)
    (fuel : Nat) (s : EngineState) (h : s.done = false) :
    (stateOf (engineLoopF content m oracle fuel s)).done = true →
      (stateOf (engineLoopF content m oracle fuel s)).offset = content.length ∨
        content.length = 0 := by
  refine engine_preserve content m oracle
    (fun s => s.done = true → (s.offset = content.length ∨ content.length = 0))
    ?_ ?_ ?_ ?_ fuel s (by intro hcon; rw [h] at hcon; simp at hcon)
  · intro s hs
    intro hd
    rw [retryStep_done] at hd
    simpa [retryStep_offset] using hs hd
  · intro s _ _
    dsimp only
    intro hd
    exact Or.inl (of_decide_eq_true hd)
  · intro s _ hz
    intro _
    exact Or.inr hz
  · intro s hs
    intro hd
    exact hs hd

lemma take_min_saturate (l : List Nat) (n : Nat) : l.take (min n l.length) = l.take n := by
  rcases Nat.le_total n l.length with h | h
  · rw [Nat.min_eq_left h]
  · rw [Nat.min_eq_right h, List.take_length, List.take_of_length_le h]

/-- If the temp artifact is a true prefix of the object, it stays one. -/
lemma engine_take (content : List Nat) (m : Nat) (oracle : Nat → Option PyExc)
    (fuel : Nat) (s : EngineState) (h1 : s.temp = content.take s.offset)
    (h2 : s.offset ≤ content.length) :
    (stateOf (engineLoopF content m oracle fuel s)).temp
      = content.take (stateOf (engineLoopF content m oracle fuel s)).offset ∧
    (stateOf (engineLoopF content m oracle fuel s)).offset ≤ content.length := by
  refine engine_preserve content m oracle
    (fun s => s.temp = content.take s.offset ∧ s.offset ≤ content.length)
    ?_ ?_ ?_ ?_ fuel s ⟨h1, h2⟩
  · intro s hs
    exact ⟨hs.1, hs.2⟩
  · intro s hs hoff
    have hlen : ((content.drop s.offset).take CHUNK_SIZE).length ≤
        content.length - s.offset := by
      simp only [List.length_take, List.length_drop]
      omega
    constructor
    · dsimp only
      rw [hs.1, List.take_add]
      congr 1
      rw [List.length_take]
      exact (take_min_saturate (content.drop s.offset) CHUNK_SIZE).symm
    · dsimp only
      omega
  · intro s hs _
    exact ⟨hs.1, hs.2⟩
  · intro s hs
    exact ⟨hs.1, hs.2⟩

/-! ## Fuel bounds -/

lemma engineFuel_gt_retries (content : List Nat) (m : Nat) :
    m < engineFuel content m := by
  unfold engineFuel
  calc m < m + 2 := by omega
  _ ≤ (content.length + 2) * (m + 2) := Nat.le_mul_of_pos_left _ (by omega)

lemma engineFuel_gt_len (content : List Nat) (m : Nat) (offset : Nat) :
    content.length - offset + 1 < engineFuel content m := by
  unfold engineFuel
  calc content.length - offset + 1 < (content.length + 2) * 2 := by omega
  _ ≤ (content.length + 2) * (m + 2) := Nat.mul_le_mul_left _ (by omega)

/-! ## Claim theorems -/

set_option maxRecDepth 1000000 in
/-- Claim C3 counterexample: with an empty expected digest, `check_md5` does
not trivially succeed: on the empty file it returns `false`, because the
computed hex digest (a 32-character string) is compared verbatim with `""`. -/
theorem c3_counterexample : check_md5 [] "" = false := by decide

/-- Claim C3 amended: if the expected digest passed to `check_md5` is empty
(in particular when `run` reads an absent `md5Checksum` field as `""`), the
verifier returns `false` for every file content: the hex digest has 32
characters and never equals the empty string. -/
theorem c3_empty_digest (content : List Nat) : check_md5 content "" = false := by
  rw [check_md5_eq_whole]
  exact beq_eq_false_iff_ne.mpr (md5hex_ne_empty content)

set_option maxRecDepth 1000000 in
/-- Claim C9 counterexample: the true digest of the empty file is the
lowercase string below; an expected digest differing from it only in letter
case (its uppercasing, whose lowercasing is again the true digest) makes
verification fail, so the comparison is not case-insensitive. -/
theorem c9_counterexample :
    md5hex [] = "d41d8cd98f00b204e9800998ecf8427e" ∧
    "D41D8CD98F00B204E9800998ECF8427E".data.map Char.toLower = (md5hex []).data ∧
    check_md5 [] "D41D8CD98F00B204E9800998ECF8427E" = false := by
  refine ⟨by decide, by decide, by decide⟩

/-- Claim C9 amended: `check_md5` compares the digest by exact string
equality: it succeeds precisely when the expected string is the lowercase
hex digest itself, so any variation in letter case fails. -/
theorem c9_exact_comparison (content : List Nat) (expected : String) :
    check_md5 content expected = true ↔ expected = md5hex content := by
  rw [check_md5_eq_whole, beq_iff_eq]
  exact eq_comm

/-- Claim C10: the verdict of `check_md5` equals the comparison of the MD5
digest of the entire file content with the expected value — the streamed
chunked computation agrees with the one-pass digest whichever chunk-size
branch (64 MiB for files over 1 GiB, 4 MiB otherwise) is taken. -/
theorem c10_streaming_refines_whole (content : List Nat) (expected : String) :
    check_md5 content expected = check_md5_spec content expected :=
  check_md5_eq_whole content expected

lemma backoff_chain (m : Nat) :
    List.Chain' (· ≤ ·) ((List.range m).map (fun k => min (2 ^ (k + 1)) 60)) := by
  refine List.Pairwise.chain' ?_
  refine (List.pairwise_map).mpr ?_
  refine List.Pairwise.imp ?_ (List.pairwise_lt_range m)
  intro a b hab
  exact min_le_min (Nat.pow_le_pow_right (by norm_num) (by omega)) le_rfl

lemma backoff_le (m : Nat) :
    ∀ x ∈ (List.range m).map (fun k => min (2 ^ (k + 1)) 60), x ≤ 60 := by
  intro x hx
  rcases List.mem_map.mp hx with ⟨i, _, rfl⟩
  exact min_le_right _ _

/-- The run of the engine from a fresh state against an always-caught-failing
fetcher: finished, not done, `m` calls, `m` retries, the standard backoff
sleep sequence. -/
lemma resume_all_caught (content : List Nat) (m : Nat)
    (oracle : Nat → Option PyExc)
    (hor : ∀ k, ∃ e, oracle k = some e ∧ caughtByLoop e = true) :
    ∃ s, resume_download none content m oracle = .finished s ∧
      s.done = false ∧ s.calls = m ∧ s.retries = m ∧
      s.sleeps = (List.range m).map (fun k => min (2 ^ (k + 1)) 60) := by
  have hkey : resume_download none content m oracle =
      engineLoopF content m oracle (engineFuel content m)
        ⟨0, 0, 0, [], [], [0], false⟩ := rfl
  have hloop := engine_all_caught content m oracle hor (engineFuel content m)
    ⟨0, 0, 0, [], [], [0], false⟩ rfl
    (by have := engineFuel_gt_retries content m; omega)
  refine ⟨_, by rw [hkey, hloop], ?_, ?_, ?_, ?_⟩
  · rw [retrySteps_done]
  · rw [retrySteps_calls]
    dsimp only
    omega
  · rw [retrySteps_retries]
    dsimp only
    omega
  · rw [retrySteps_sleeps]
    dsimp only
    simp

/-- Claim C5: with every chunk fetch failing transiently, the engine makes
exactly `max_retries` fetch attempts and returns failure (`done = false`);
the delay slept after the k-th consecutive failure is `min(2^k, 60)`
seconds, so the sequence of delays is non-decreasing and capped at 60. -/
theorem c5_retry_backoff (content : List Nat) (m : Nat) (hm : 1 ≤ m) :
    ∃ s, resume_download none content m transientOracle = .finished s ∧
      s.done = false ∧ s.calls = m ∧ s.retries = m ∧
      s.sleeps = (List.range m).map (fun k => min (2 ^ (k + 1)) 60) ∧
      List.Chain' (· ≤ ·) s.sleeps ∧ ∀ x ∈ s.sleeps, x ≤ 60 := by
  obtain ⟨s, h1, h2, h3, h4, h5⟩ := resume_all_caught content m transientOracle
    (fun k => ⟨PyExc.connectionError, rfl, rfl⟩)
  exact ⟨s, h1, h2, h3, h4, h5, by rw [h5]; exact backoff_chain m,
    by rw [h5]; exact backoff_le m⟩

/-- Claim C5 witness at `max_retries = 2` on a one-byte object. -/
theorem c5_witness :
    (1 ≤ 2) ∧ (∃ s, resume_download none [5] 2 transientOracle = .finished s ∧
      s.done = false ∧ s.calls = 2 ∧ s.retries = 2 ∧
      s.sleeps = (List.range 2).map (fun k => min (2 ^ (k + 1)) 60) ∧
      List.Chain' (· ≤ ·) s.sleeps ∧ ∀ x ∈ s.sleeps, x ≤ 60) :=
  ⟨by omega, c5_retry_backoff [5] 2 (by omega)⟩

/-- Claim C2 counterexample: a fetcher failing with the fatal classification
`HttpError 404` (object not found) is retried like a transient failure: with
`max_retries = 3` the engine makes three attempts, sleeps 2, 4 and 8 seconds
(incrementing the retry counter each time) instead of aborting with zero
retries and no sleep. -/
theorem c2_counterexample :
    resume_download none [1, 2, 3] 3 fatalNotFoundOracle =
      .finished { offset := 0, retries := 3, calls := 3, temp := [],
                  sleeps := [2, 4, 8], offsetHistory := [0], done := false } := by
  decide

/-- Claim C2 amended: chunk-fetch failures raised as `HttpError` — including
the fatal classifications (authentication rejected, not found, permission
revoked) — consume the retry budget with backoff exactly like transient
ones; the engine aborts immediately with zero retries, no sleep and no
further attempt only for exceptions outside the caught tuple, which
propagate out of the loop. -/
theorem c2_fatal_retried (content : List Nat) (m : Nat) (hm : 1 ≤ m) :
    (∃ s, resume_download none content m fatalNotFoundOracle = .finished s ∧
       s.done = false ∧ s.calls = m ∧ s.retries = m ∧
       s.sleeps = (List.range m).map (fun k => min (2 ^ (k + 1)) 60)) ∧
    ∀ e, caughtByLoop e = false →
      resume_download none content m (fun _ => some e) =
        .raised e { offset := 0, retries := 0, calls := 1, temp := [],
                    sleeps := [], offsetHistory := [0], done := false } := by
  constructor
  · exact resume_all_caught content m fatalNotFoundOracle
      (fun k => ⟨PyExc.httpError 404, rfl, rfl⟩)
  · intro e he
    have hkey : resume_download none content m (fun _ => some e) =
        engineLoopF content m (fun _ => some e) (engineFuel content m)
          ⟨0, 0, 0, [], [], [0], false⟩ := rfl
    rw [hkey]
    have hpos : 0 < engineFuel content m := by
      have := engineFuel_gt_retries content m
      omega
    cases hE : engineFuel content m with
    | zero => omega
    | succ f =>
      simp only [engineLoopF]
      rw [if_neg (by simp; omega)]
      rw [if_neg (by rw [he]; simp)]

/-- Claim C2 witness: the amended behaviour at concrete inputs. -/
theorem c2_witness :
    (∃ s, resume_download none [9] 1 fatalNotFoundOracle = .finished s ∧
       s.done = false ∧ s.calls = 1 ∧ s.retries = 1 ∧
       s.sleeps = (List.range 1).map (fun k => min (2 ^ (k + 1)) 60)) ∧
    resume_download none [9] 1 (fun _ => some PyExc.otherError) =
      .raised PyExc.otherError { offset := 0, retries := 0, calls := 1, temp := [],
                                 sleeps := [], offsetHistory := [0], done := false } :=
  ⟨(c2_fatal_retried [9] 1 (by omega)).1,
   (c2_fatal_retried [9] 1 (by omega)).2 PyExc.otherError rfl⟩

/-- Claim C7 counterexample: with a declared size of zero but a stale
two-byte temp artifact, the zero-byte special case of the chunk downloader
reports completion on the first call, so `resume_download` returns true
while the confirmed offset (2) differs from the declared size (0). -/
theorem c7_counterexample :
    resume_download (some [7, 7]) [] 3 allOk =
      .finished { offset := 2, retries := 0, calls := 1, temp := [7, 7],
                  sleeps := [], offsetHistory := [2, 2], done := true } ∧
    (2 : Nat) ≠ List.length ([] : List Nat) := ⟨by decide, by decide⟩

/-- Claim C7 amended: `resume_download` returns true only when the confirmed
offset equals the declared size or the declared size is zero (the zero-byte
special case can report completion from a stale temp artifact); when it
returns false (retry exhaustion) and when an uncaught exception aborts the
loop, the temp artifact is preserved, not deleted or truncated: it extends
the initial temp bytes and its on-disk length equals the confirmed offset,
so a future invocation can resume from it. -/
theorem c7_done_characterisation (tempC : Option (List Nat)) (content : List Nat)
    (m : Nat) (oracle : Nat → Option PyExc) :
    (∀ s, resume_download tempC content m oracle = .finished s → s.done = true →
       s.offset = content.length ∨ content.length = 0) ∧
    (∀ s, resume_download tempC content m oracle = .finished s → s.done = false →
       s.temp.length = s.offset ∧ ∃ rest, s.temp = tempC.getD [] ++ rest) ∧
    (∀ e s, resume_download tempC content m oracle = .raised e s →
       s.temp.length = s.offset ∧ ∃ rest, s.temp = tempC.getD [] ++ rest) := by
  have hkey : resume_download tempC content m oracle =
      engineLoopF content m oracle (engineFuel content m)
        ⟨(tempC.getD []).length, 0, 0, tempC.getD [], [],
          [(tempC.getD []).length], false⟩ := rfl
  have hdone := engine_done_origin content m oracle (engineFuel content m)
    ⟨(tempC.getD []).length, 0, 0, tempC.getD [], [],
      [(tempC.getD []).length], false⟩ rfl
  have hlen := engine_temp_len content m oracle (engineFuel content m)
    ⟨(tempC.getD []).length, 0, 0, tempC.getD [], [],
      [(tempC.getD []).length], false⟩ rfl
  have hext := engine_extends content m oracle (engineFuel content m)
    ⟨(tempC.getD []).length, 0, 0, tempC.getD [], [],
      [(tempC.getD []).length], false⟩
  rw [← hkey] at hdone hlen hext
  refine ⟨?_, ?_, ?_⟩
  · intro s hs hd
    rw [hs] at hdone
    simp only [stateOf] at hdone
    exact hdone hd
  · intro s hs _
    obtain ⟨r1, r2, h1, h2⟩ := hext
    rw [hs] at hlen h1
    simp only [stateOf] at hlen h1
    exact ⟨hlen, r1, h1⟩
  · intro e s hs
    obtain ⟨r1, r2, h1, h2⟩ := hext
    rw [hs] at hlen h1
    simp only [stateOf] at hlen h1
    exact ⟨hlen, r1, h1⟩

/-- Claim C7 witness: the done-characterisation applied to the concrete
zero-size run above, and the preservation applied to an exhausted run. -/
theorem c7_witness :
    ((2 : Nat) = List.length ([] : List Nat) ∨ List.length ([] : List Nat) = 0) ∧
    (List.length ([7, 7] : List Nat) = 2 ∧
      ∃ rest, ([7, 7] : List Nat) = (some [7, 7] : Option (List Nat)).getD [] ++ rest) :=
  ⟨(c7_done_characterisation (some [7, 7]) [] 3 allOk).1
      { offset := 2, retries := 0, calls := 1, temp := [7, 7],
        sleeps := [], offsetHistory := [2, 2], done := true } (by decide) rfl,
   (c7_done_characterisation (some [7, 7]) [9] 1 transientOracle).2.1
      { offset := 2, retries := 1, calls := 1, temp := [7, 7],
        sleeps := [2], offsetHistory := [2], done := false } (by decide) rfl⟩

/-- Claim C8 counterexample: the initial state is derived from the
pre-existing temp artifact without any clamping, so a two-byte temp file for
a one-byte object yields an initial (and recorded) confirmed offset 2 above
the declared size 1, violating the claimed invariant. -/
theorem c8_counterexample :
    resume_download (some [7, 7]) [9] 1 transientOracle =
      .finished { offset := 2, retries := 1, calls := 1, temp := [7, 7],
                  sleeps := [2], offsetHistory := [2], done := false } ∧
    ¬ ((2 : Nat) ≤ List.length ([9] : List Nat)) := ⟨by decide, by decide⟩

/-- Claim C8 amended: provided the pre-existing temp artifact is no longer
than the declared size, the confirmed offset — initially and after every
chunk write, as recorded in the offset history — stays between 0 and the
declared size (the lower bound is inherent to the unsigned type). -/
theorem c8_offset_bounded (tempC : Option (List Nat)) (content : List Nat)
    (m : Nat) (oracle : Nat → Option PyExc)
    (h : (tempC.getD []).length ≤ content.length) :
    (stateOf (resume_download tempC content m oracle)).offset ≤ content.length ∧
    ∀ o ∈ (stateOf (resume_download tempC content m oracle)).offsetHistory,
      o ≤ content.length := by
  have hkey : resume_download tempC content m oracle =
      engineLoopF content m oracle (engineFuel content m)
        ⟨(tempC.getD []).length, 0, 0, tempC.getD [], [],
          [(tempC.getD []).length], false⟩ := rfl
  rw [hkey]
  refine engine_le content m oracle (engineFuel content m) _ h ?_
  intro o ho
  rcases List.mem_singleton.mp ho with rfl
  exact h

/-- Claim C8 witness: the amended bound on a fresh one-byte download. -/
theorem c8_witness :
    (List.length ((none : Option (List Nat)).getD []) ≤ List.length ([5] : List Nat)) ∧
    (stateOf (resume_download none [5] 1 allOk)).offset ≤ List.length ([5] : List Nat) :=
  ⟨by decide, (c8_offset_bounded none [5] 1 allOk (by decide)).1⟩

/-- A run whose initial temp artifact is a true prefix of the object yields,
whenever it reports done, a temp artifact equal to the whole object. -/
lemma resume_success_temp (tempC : Option (List Nat)) (content : List Nat)
    (m : Nat) (oracle : Nat → Option PyExc)
    (hpre : tempC.getD [] = content.take ((tempC.getD []).length))
    (hle : (tempC.getD []).length ≤ content.length) :
    ∀ s, resume_download tempC content m oracle = .finished s → s.done = true →
      s.temp = content := by
  have hkey : resume_download tempC content m oracle =
      engineLoopF content m oracle (engineFuel content m)
        ⟨(tempC.getD []).length, 0, 0, tempC.getD [], [],
          [(tempC.getD []).length], false⟩ := rfl
  have htake := engine_take content m oracle (engineFuel content m)
    ⟨(tempC.getD []).length, 0, 0, tempC.getD [], [],
      [(tempC.getD []).length], false⟩ hpre hle
  have hdone := engine_done_origin content m oracle (engineFuel content m)
    ⟨(tempC.getD []).length, 0, 0, tempC.getD [], [],
      [(tempC.getD []).length], false⟩ rfl
  rw [← hkey] at htake hdone
  intro s hs hd
  rw [hs] at htake hdone
  simp only [stateOf] at htake hdone
  rcases hdone hd with h | h
  · rw [htake.1, h, List.take_length]
  · have hnil : content = [] := List.length_eq_zero.mp h
    rw [htake.1, hnil, List.take_nil]

/-- Claim C6: the engine initialises the resume offset from the temp file's
on-disk length (the first recorded offset is that length, whatever the
fetcher does), and whenever a run starting from a temp artifact holding
exactly the first `offset` bytes of the object reports success, the final
artifact is the whole object — byte-identical to what a successful
from-zero run produces. -/
theorem c6_resume_correct (content : List Nat) (offset m : Nat)
    (oracle oracle0 : Nat → Option PyExc) (h : offset ≤ content.length) :
    (stateOf (resume_download (some (content.take offset)) content m
        oracle)).offsetHistory.head? = some (content.take offset).length ∧
    (∀ s, resume_download (some (content.take offset)) content m oracle
        = .finished s → s.done = true → s.temp = content) ∧
    (∀ s0, resume_download none content m oracle0 = .finished s0 →
      s0.done = true → s0.temp = content) := by
  refine ⟨?_, ?_, ?_⟩
  · have hkey : resume_download (some (content.take offset)) content m oracle =
        engineLoopF content m oracle (engineFuel content m)
          ⟨(content.take offset).length, 0, 0, content.take offset, [],
            [(content.take offset).length], false⟩ := rfl
    obtain ⟨r1, r2, h1, h2⟩ := engine_extends content m oracle (engineFuel content m)
      ⟨(content.take offset).length, 0, 0, content.take offset, [],
        [(content.take offset).length], false⟩
    rw [← hkey] at h2
    rw [h2]
    rfl
  · refine resume_success_temp _ content m oracle ?_ ?_
    · show content.take offset = content.take ((content.take offset).length)
      rw [List.length_take, Nat.min_eq_left h]
    · show (content.take offset).length ≤ content.length
      rw [List.length_take]
      omega
  · refine resume_success_temp none content m oracle0 rfl (by simp)

/-- Claim C6 witness: resuming from the first byte of a two-byte object. -/
theorem c6_witness :
    ((1 : Nat) ≤ List.length ([3, 4] : List Nat)) ∧
    (stateOf (resume_download (some (([3, 4] : List Nat).take 1)) [3, 4] 3
        allOk)).offsetHistory.head? = some (([3, 4] : List Nat).take 1).length ∧
    ({ offset := 2, retries := 0, calls := 1, temp := [3, 4], sleeps := [],
       offsetHistory := [1, 2], done := true } : EngineState).temp = [3, 4] :=
  ⟨by decide, (c6_resume_correct [3, 4] 1 3 allOk allOk (by decide)).1,
   (c6_resume_correct [3, 4] 1 3 allOk allOk (by decide)).2.1
      { offset := 2, retries := 0, calls := 1, temp := [3, 4], sleeps := [],
        offsetHistory := [1, 2], done := true } (by decide) rfl⟩

/-- Claim C4 failing input: a healthy world whose chunk fetches fail
transiently until the retry budget is exhausted makes `run` print the
"download failed" message and fall off the function, returning Python's
`None` — not one of the structured outcomes its docstring promises. -/
theorem c4_none_return : (run c4World transientOracle true).1 = none := by decide

set_option maxRecDepth 1000000 in
/-- Claim C1 counterexample: the final path already holds bytes `[0]` whose
digest does not match the expected one; instead of only reporting the
mismatch and leaving the file alone, `run` falls through the warning,
re-downloads the object and renames the temp artifact over the final path,
whose bytes change from `[0]` to `[1]`. -/
theorem c1_counterexample :
    c1World.finalContent = some [0] ∧
    (run c1World allOk true).2.finalContent = some [1] ∧
    (run c1World allOk true).1 = some false :=
  ⟨rfl, by decide, by decide⟩

/-- Claim C1 amended: when the digest mismatch is detected on a freshly
downloaded artifact (no pre-existing final file), `run` reports failure and
performs no deletion and no re-download — the renamed artifact keeps the
downloaded bytes; but when the final path already exists with a mismatched
digest, `run` only warns and then re-downloads, overwriting the existing
final artifact on success (see the counterexample). -/
theorem c1_fresh_mismatch (w : World) (h1 : w.credsFail = false)
    (h2 : w.metadataFail = false) (h3 : w.finalContent = none)
    (h4 : w.tempContent = none) (h5 : 0 < w.object.length)
    (h6 : check_md5 w.object (w.md5Checksum.getD "") = false) :
    run w allOk true =
      (some false, { w with finalContent := some w.object, tempContent := none }) := by
  obtain ⟨k, hist, heq⟩ := engine_all_ok w.object 3 (engineFuel w.object 3)
    ⟨0, 0, 0, [], [], [0], false⟩ rfl (by decide) h5 (engineFuel_gt_len w.object 3 0)
  have hres : resume_download w.tempContent w.object 3 allOk =
      .finished { offset := w.object.length, retries := 0, calls := 0 + k,
                  temp := [] ++ w.object.drop 0, sleeps := [],
                  offsetHistory := [0] ++ hist, done := true } := by
    rw [h4]
    exact heq
  rw [List.nil_append, List.drop_zero] at hres
  simp only [run, h1, h2, h3, runDownloadPhase, hres, h6, Bool.false_eq_true,
    if_false, if_true, Bool.true_eq_false, stateOf]

set_option maxRecDepth 1000000 in
/-- Claim C1 witness: a fresh download of a one-byte object against a wrong
expected digest returns failure and leaves the artifact in place. -/
theorem c1_witness :
    (0 < c1WitnessWorld.object.length) ∧
    (check_md5 c1WitnessWorld.object (c1WitnessWorld.md5Checksum.getD "") = false) ∧
    run c1WitnessWorld allOk true =
      (some false, { c1WitnessWorld with
        finalContent := some c1WitnessWorld.object, tempContent := none }) :=
  ⟨by decide, by decide,
   c1_fresh_mismatch c1WitnessWorld rfl rfl rfl rfl (by decide) (by decide)⟩
